import Mathlib

/-!
Verification of the library sheet data model and block-content extraction
engine of the mcp-da-live-media repository.

The JavaScript sources are shallowly embedded: JSON sheet documents become
explicit structures, JS objects become ordered association lists, and the
regex-driven HTML scanner becomes an executable token matcher with the same
leftmost / greedy-with-backtracking semantics as the JS regular expressions
used by the source.
-/

namespace DaMedia

instance {ε α : Type} [DecidableEq ε] [DecidableEq α] : DecidableEq (Except ε α) := fun x y =>
  match x, y with
  | .ok a, .ok b =>
    if h : a = b then .isTrue (h ▸ rfl) else .isFalse fun hh => h (Except.ok.inj hh)
  | .error a, .error b =>
    if h : a = b then .isTrue (h ▸ rfl) else .isFalse fun hh => h (Except.error.inj hh)
  | .ok _, .error _ => .isFalse fun hh => Except.noConfusion hh
  | .error _, .ok _ => .isFalse fun hh => Except.noConfusion hh

/-! ## Rows: JS objects mapping column names to string values.

A row is an ordered association list.  `rowGet` is JS property read
(first binding, `none` = `undefined`); `rowSet` is JS property write
(update in place if the key exists, else append). -/

abbrev Row := List (String × String)

def rowGet (r : Row) (k : String) : Option String := r.lookup k

def rowSet : Row → String → String → Row
  | [], k, v => [(k, v)]
  | (k1, v1) :: rest, k, v =>
    if k1 = k then (k, v) :: rest else (k1, v1) :: rowSet rest k v

def rowHasKey (r : Row) (k : String) : Bool := (rowGet r k).isSome

/-! ## JSON sheet documents (library-cfg-utils.js).

`JSheet` models a sheet-like JS object; every field is optional because the
source reads them defensively (`config.total || 0`, `sheet.data || []`).
`JDoc` models a whole JSON document: `flat` is a document tagged
`':type': 'sheet'`, `multi` is tagged `':type': 'multi-sheet'` (with its
`':names'` list), and `other` is a document carrying neither tag. -/

structure JSheet where
  total : Option Nat := none
  limit : Option Nat := none
  offset : Option Nat := none
  data : Option (List Row) := none
  colWidths : Option (List Nat) := none
deriving Repr, DecidableEq

inductive JDoc where
  | flat (s : JSheet)
  | multi (sheets : List (String × JSheet)) (names : List String)
  | other (s : JSheet)
deriving Repr, DecidableEq

/-- `createSheetStructure(data)`: builds `{ total, limit, offset, data }` with
`total = limit = data.length`, `offset = 0`.  The constructed object has no
other fields (in particular no `:colWidths`). -/
def createSheetStructure (data : List Row) : JSheet :=
  { total := some data.length, limit := some data.length,
    offset := some 0, data := some data, colWidths := none }

/-- `getDataSheet(jsonData)`: a multi-sheet document yields its `data`
member (or null); any other document is returned as the sheet itself. -/
def getDataSheet : JDoc → Option JSheet
  | .multi sheets _ => sheets.lookup "data"
  | .flat s => some s
  | .other s => some s

/-- `getOptionsSheet(jsonData)`: the `options` member of a multi-sheet
document; sheet-shaped documents carry no `options` member in this model. -/
def getOptionsSheet : JDoc → Option JSheet
  | .multi sheets _ => sheets.lookup "options"
  | _ => none

/-- `createSheet(entries)`: a flat sheet tagged `':type': 'sheet'`. -/
def createSheet (entries : List Row) : JDoc := .flat (createSheetStructure entries)

/-- `createMultiSheetJSON(sheets)`: every member is rebuilt by
`createSheetStructure(sheet.data || [])`, `':names'` records the key order. -/
def createMultiSheetJSON (sheets : List (String × JSheet)) : JDoc :=
  .multi (sheets.map fun p => (p.1, createSheetStructure (p.2.data.getD [])))
    (sheets.map fun p => p.1)

/-- `parseMultiSheetJSON(config)`: collects the members listed in `':names'`
that are present, in `':names'` order; a repeated name keeps its first
position (JS object key semantics). -/
def parseMultiSheetJSON (sheets : List (String × JSheet)) (names : List String) :
    List (String × JSheet) :=
  names.foldl
    (fun acc name =>
      if (acc.lookup name).isSome then acc
      else
        match sheets.lookup name with
        | some s => acc ++ [(name, s)]
        | none => acc)
    []

/-! ## Library types (global.js) and the path builder. -/

def LIBRARY_TYPES : List String := ["blocks", "templates", "icons", "placeholders"]

structure LibTypeConfig where
  multiSheet : Bool := false
  hasOptions : Bool := false

def LIBRARY_CONFIG (ty : String) : LibTypeConfig :=
  if ty = "blocks" then { multiSheet := true, hasOptions := true } else {}

/-- `cleanPath(path)`: removes a single leading slash if present
(`path.startsWith('/') ? path.slice(1) : path`, expressed on the character
list). -/
def cleanPath (path : String) : String :=
  match path.toList with
  | c :: rest => if c = '/' then String.mk rest else path
  | [] => path

/-- `buildLibraryPath(type, baseFolder, itemName)`: throws on an unknown
library type (modelled as `Except.error`); an empty `itemName` is falsy in
JS, so it yields the bare base path. -/
def buildLibraryPath (ty : String) (baseFolder : String) (itemName : Option String) :
    Except String String :=
  if LIBRARY_TYPES.contains ty then
    let base := "/" ++ cleanPath baseFolder ++ "/" ++ ty
    match itemName with
    | some item => .ok (if item.isEmpty then base else base ++ "/" ++ item)
    | none => .ok base
  else .error ("Unknown library type: " ++ ty)

/-- `createDefaultBlockOptions()`: the fixed default options table. -/
def createDefaultBlockOptions : JSheet :=
  { data := some
      [ [("key", "style"), ("blocks", "section-metadata"),
         ("values", "xxs-spacing | xs-spacing | s-spacing | m-spacing | l-spacing | xl-spacing | xxl-spacing | dark | light | quiet")],
        [("key", "gap"), ("blocks", "ALL"),
         ("values", "100 | 200 | 300 | 400 | 500 | 600 | 700 | 800")],
        [("key", "background"), ("blocks", "section-metadata"),
         ("values", "dark-grey=#676767 | light-grey=#EFEFEF | adobe-red=#FF0000 | blue=#0077B6 | green=#00A36C")],
        [("key", "spacing"), ("blocks", "section-metadata"),
         ("values", "400 | 500 | 600 | 700 | 800")],
        [("key", "template"), ("blocks", "metadata"),
         ("values", "blog-post | product-page | feature-page")] ] }

/-- `createLibraryJSON(type, entries, optionsSheet)`: for a multi-sheet type
the `data` sheet is built from `entries` and the `options` sheet is either
the supplied one or the default table; other known types yield a flat sheet;
unknown types throw. -/
def createLibraryJSON (ty : String) (entries : List Row) (optionsSheet : Option JSheet) :
    Except String JDoc :=
  if LIBRARY_TYPES.contains ty then
    let config := LIBRARY_CONFIG ty
    if config.multiSheet then
      let sheets := [("data", ({ data := some entries } : JSheet))]
      let sheets :=
        match optionsSheet with
        | some o => sheets ++ [("options", o)]
        | none =>
          if config.hasOptions then sheets ++ [("options", createDefaultBlockOptions)]
          else sheets
      .ok (createMultiSheetJSON sheets)
    else .ok (createSheet entries)
  else .error ("Unknown library type: " ++ ty)

/-! ## Entry upsert / remove / membership (library-cfg-utils.js). -/

/-- The data-array transformation performed by `addEntry`: `findIndex` on the
key field, replace in place on a hit (first match), else push.  Written as a
single scan, which is extensionally the `findIndex`/`data[i] = entry`/`push`
of the source. -/
def addEntryData (keyField : String) (entry : Row) : List Row → List Row
  | [] => [entry]
  | item :: rest =>
    if rowGet item keyField == rowGet entry keyField then entry :: rest
    else item :: addEntryData keyField entry rest

/-- `addEntry(dataSheet, entry, keyField)` (the `upsertRow` of the spec). -/
def addEntry (dataSheet : Option JSheet) (entry : Row) (keyField : String) : JSheet :=
  createSheetStructure (addEntryData keyField entry ((dataSheet.bind JSheet.data).getD []))

/-- `removeEntry(dataSheet, key, keyField)`. -/
def removeEntry (dataSheet : Option JSheet) (key : String) (keyField : String) : JSheet :=
  createSheetStructure
    (((dataSheet.bind JSheet.data).getD []).filter fun item =>
      !(rowGet item keyField == some key))

/-- `entryExists(dataSheet, key, keyField)`. -/
def entryExists (dataSheet : Option JSheet) (key : String) (keyField : String) : Bool :=
  ((dataSheet.bind JSheet.data).getD []).any fun item => rowGet item keyField == some key

/-- The data-model invariant on a row list: the values of the key field are
pairwise distinct (section 3 of the spec: rows within a sheet must have
unique key-field values). -/
def distinctKeys (keyField : String) : List Row → Bool
  | [] => true
  | r :: rest =>
    (rest.all fun r2 => !(rowGet r2 keyField == rowGet r keyField)) && distinctKeys keyField rest

/-! ## Site config library registrar (operations/config.js).

`registerLibraryType` performs fetch / `ensureLibrarySheet` / in-place
mutation of the returned `librarySheet` / upload.  The JS mutations act on
shared references, which matters: in every branch except the
already-has-library one, `createMultiSheetJSON` wraps the library row array
in a fresh `{total, limit, offset, data}` object, so the later
`librarySheet.total = ...` / `.limit = ...` writes update only the returned
`librarySheet` object while the uploaded config still shows the counters
computed at wrap time (0); only the shared `data` array reflects the upsert.
The model below reproduces exactly that. -/

/-- `ensureLibraryColumns(newEntry, existingEntries)`: back-fill the columns
of the first existing row with empty strings. -/
def ensureLibraryColumns (newEntry : Row) (existingEntries : List Row) : Row :=
  match existingEntries with
  | [] => newEntry
  | firstEntry :: _ =>
    firstEntry.foldl (fun acc kv => if rowHasKey acc kv.1 then acc else acc ++ [(kv.1, "")])
      newEntry

/-- `createLibraryEntry(libraryType, configPath, existingEntries)`. -/
def createLibraryEntry (libraryType configPath : String) (existingEntries : List Row) : Row :=
  ensureLibraryColumns [("title", libraryType), ("path", configPath)] existingEntries

structure EnsureResult where
  newConfig : JDoc
  librarySheet : JSheet
  preservedRows : Nat
  sheetExisted : Bool
deriving Repr, DecidableEq

/-- The fresh `{ total: 0, limit: 0, offset: 0, data: [] }` library sheet. -/
def emptyLibrarySheet : JSheet :=
  { total := some 0, limit := some 0, offset := some 0, data := some [], colWidths := none }

/-- `convertToMultiSheet(config)`: wraps the flat rows under a `data` sheet
(copying `total || 0` and, when present, `:colWidths` onto the intermediate
object) and adds an empty `library` sheet.  `sheetExisted` is left undefined
in the source, hence falsy. -/
def convertToMultiSheet (config : JSheet) : EnsureResult :=
  let existingDataSheet : JSheet :=
    { total := some (config.total.getD 0), limit := none, offset := none,
      data := some (config.data.getD []), colWidths := config.colWidths }
  { newConfig := createMultiSheetJSON [("data", existingDataSheet), ("library", emptyLibrarySheet)],
    librarySheet := emptyLibrarySheet,
    preservedRows := (config.data.getD []).length,
    sheetExisted := false }

/-- `ensureLibrarySheet(config)`: dispatch on the `':type'` tag. -/
def ensureLibrarySheet (config : JDoc) : EnsureResult :=
  match config with
  | .flat s => convertToMultiSheet s
  | .multi sheets names =>
    match sheets.lookup "library" with
    | some lib =>
      { newConfig := .multi sheets names, librarySheet := lib,
        preservedRows := 0, sheetExisted := true }
    | none =>
      let parsed := parseMultiSheetJSON sheets names
      { newConfig := createMultiSheetJSON (parsed ++ [("library", emptyLibrarySheet)]),
        librarySheet := emptyLibrarySheet, preservedRows := 0, sheetExisted := false }
  | .other _ =>
    { newConfig := createMultiSheetJSON [("library", emptyLibrarySheet)],
      librarySheet := emptyLibrarySheet, preservedRows := 0, sheetExisted := false }

/-- The in-place upsert on the library rows: `findIndex` on `title == type`,
set `path` on a hit, else push `createLibraryEntry(type, path, rows)`.
`origRows` is the whole row array, used for the column back-fill. -/
def updateTitleRows (origRows : List Row) (ty path : String) : List Row → List Row
  | [] => [createLibraryEntry ty path origRows]
  | r :: rest =>
    if rowGet r "title" == some ty then rowSet r "path" path :: rest
    else r :: updateTitleRows origRows ty path rest

structure RegisterResult where
  registered : Bool
  existed : Bool
  createdSheet : Bool
  convertedToMultiSheet : Bool
  libraryEntryCount : Nat
deriving Repr, DecidableEq

/-- Replace the `library` member of a multi-sheet member list. -/
def setLibraryMember (sheets : List (String × JSheet)) (newLib : JSheet) :
    List (String × JSheet) :=
  sheets.map fun p => if p.1 = "library" then (p.1, newLib) else p

/-- `registerLibraryType(org, repo, libraryType, configPath)`, with the
fetched site config passed in and the uploaded config returned.  `none`
models the caught-exception path (`librarySheet.data` is undefined, so
`findIndex` throws; the catch returns `registered: false` and nothing is
uploaded).  In the branch where the `library` sheet already existed, the
mutated sheet is the config member itself, so `data`, `total` and `limit`
all land in the uploaded config; in the other branches only the shared
`data` array does (see the section comment). -/
def registerLibraryType (config : JDoc) (libraryType configPath : String) :
    Option (JDoc × RegisterResult) :=
  let er := ensureLibrarySheet config
  match er.librarySheet.data with
  | none => none
  | some rows0 =>
    let existed := rows0.any fun r => rowGet r "title" == some libraryType
    let rows1 := updateTitleRows rows0 libraryType configPath rows0
    let uploaded : JDoc :=
      match er.newConfig with
      | .multi sheets names =>
        let newLib : JSheet :=
          if er.sheetExisted then
            { er.librarySheet with
              data := some rows1
              total := some rows1.length
              limit := some rows1.length }
          else
            { total := some 0, limit := some 0, offset := some 0,
              data := some rows1, colWidths := none }
        .multi (setLibraryMember sheets newLib) names
      | d => d
    some (uploaded,
      { registered := true, existed := existed, createdSheet := !er.sheetExisted,
        convertedToMultiSheet := (match config with | .flat _ => true | _ => false),
        libraryEntryCount := rows1.length })

/-- `config?.library` (used by `getLibrarySheet` / `checkLibraryRegistration`). -/
def getLibrarySheet : JDoc → Option JSheet
  | .multi sheets _ => sheets.lookup "library"
  | _ => none

/-! ## Batch setup (sheet-utils.js `setupSheetItems`).

The per-item work (`createEntry(item)` followed by the read/upsert/persist
round trip of `addSheetItem`) is abstracted as `step : item -> Except error
existed`; `label` models the `item[keyField] || item.key || item.name` tag
used in the error list. -/

structure BatchItemOutcome (α : Type) where
  item : α
  success : Bool
  existed : Option Bool
  error : Option String
deriving Repr, DecidableEq

structure BatchSummary where
  total : Nat
  added : Nat
  updated : Nat
  failed : Nat
deriving Repr, DecidableEq

structure BatchResult (α : Type) where
  summary : BatchSummary
  items : List (BatchItemOutcome α)
  errors : List String
  success : Bool

structure BatchState (α : Type) where
  added : Nat
  updated : Nat
  failed : Nat
  outcomes : List (BatchItemOutcome α)
  errors : List String

/-- One iteration of the `for (const item of items)` loop. -/
def batchStep {α : Type} (label : α → String) (step : α → Except String Bool)
    (st : BatchState α) (item : α) : BatchState α :=
  match step item with
  | .ok existed =>
    { st with
      added := if existed then st.added else st.added + 1,
      updated := if existed then st.updated + 1 else st.updated,
      outcomes := st.outcomes ++ [{ item := item, success := true,
                                    existed := some existed, error := none }] }
  | .error msg =>
    { st with
      failed := st.failed + 1,
      outcomes := st.outcomes ++ [{ item := item, success := false,
                                    existed := none, error := some msg }],
      errors := st.errors ++ [label item ++ ": " ++ msg] }

/-- `setupSheetItems(org, repo, items, keyField, path, createSheetFn,
createEntry)`. -/
def setupSheetItems {α : Type} (items : List α) (label : α → String)
    (step : α → Except String Bool) : BatchResult α :=
  let st := items.foldl (batchStep label step) ⟨0, 0, 0, [], []⟩
  { summary := { total := items.length, added := st.added,
                 updated := st.updated, failed := st.failed },
    items := st.outcomes, errors := st.errors,
    success := st.failed == 0 }

/-! ## Block add / remove (operations/library.js). -/

/-- The document transformation of `addBlock`: read the current blocks
document, upsert the entry into its data sheet, and re-encode keeping the
current options sheet (`createLibraryJSON` with type `blocks`). -/
def addBlock (blocksJSON : Option JDoc) (entry : Row) : Except String JDoc :=
  let dataSheet := blocksJSON.bind getDataSheet
  let optionsSheet := blocksJSON.bind getOptionsSheet
  let updatedDataSheet := addEntry dataSheet entry "name"
  createLibraryJSON "blocks" (updatedDataSheet.data.getD []) optionsSheet

/-- The document transformation of `removeBlock`; `none` models the early
`removed: false` returns (missing document or missing data sheet), where
nothing is uploaded. -/
def removeBlock (blocksJSON : Option JDoc) (blockName : String) :
    Option (Except String JDoc) :=
  match blocksJSON with
  | none => none
  | some doc =>
    match getDataSheet doc with
    | none => none
    | some dataSheet =>
      let updatedDataSheet := removeEntry (some dataSheet) blockName "name"
      some (createLibraryJSON "blocks" (updatedDataSheet.data.getD []) (getOptionsSheet doc))

/-! ## Block content extraction (`parseBlockInstances` in operations/templates.js).

The source drives everything with four JS regular expressions:

  * `new RegExp('<div([^>]*class="[^"]*\\b' + blockName + '\\b[^"]*"[^>]*)>', 'gi')`
  * `/class="([^"]*)"/` (applied to the captured attribute group)
  * `/<div[^>]*>/g` and `/<\/div>/g` (the depth-tracked scan)

These patterns use only literal characters, negated character classes under
`*`, and the word-boundary assertion, so they are embedded as token lists
over a small matcher that reproduces the JS semantics exactly: a match is
searched leftmost-first, and `[^c]*` is greedy with backtracking.  The `i`
flag is modelled by case-insensitive literal tokens. -/

/-- JS `\w`: `[A-Za-z0-9_]`. -/
def isWordChar (c : Char) : Bool := c.isAlphanum || c = '_'

/-- Wordness of the character at index `i`; out of range counts as non-word. -/
def wordAt (s : List Char) (i : Nat) : Bool := (s[i]?.map isWordChar).getD false

/-- JS `\b` holds at `i` when the wordness of the previous character (non-word
at the string edge) differs from the wordness of the character at `i`. -/
def boundaryAt (s : List Char) (i : Nat) : Bool :=
  (if i = 0 then false else wordAt s (i - 1)) != wordAt s i

/-- One token of the embedded patterns: a (case-sensitive or
case-insensitive) literal, a greedy `[^cs]*`, or `\b`. -/
inductive RTok where
  | lit (c : Char)
  | litCI (c : Char)
  | starNot (cs : List Char)
  | wb
deriving Repr, DecidableEq

/-- Length of the maximal run of characters excluded by `[^cs]` at `i`. -/
def runLen (cs : List Char) (s : List Char) (i : Nat) : Nat :=
  ((s.drop i).takeWhile fun c => !(cs.contains c)).length

/-- Greedy backtracking: try the continuation at `i + k`, `i + k - 1`, ...,
`i`, returning the first success. -/
def tryFrom (f : Nat → Option Nat) (i : Nat) : Nat → Option Nat
  | 0 => f i
  | k + 1 =>
    match f (i + (k + 1)) with
    | some e => some e
    | none => tryFrom f i k

/-- Match the token list at position `i`, returning the end position of the
overall match chosen by the JS backtracking order (greedy stars, longest
alternative first). -/
def reMatch : List RTok → List Char → Nat → Option Nat
  | [], _, i => some i
  | .lit c :: ts, s, i =>
    match s[i]? with
    | some d => if d = c then reMatch ts s (i + 1) else none
    | none => none
  | .litCI c :: ts, s, i =>
    match s[i]? with
    | some d => if d.toLower = c.toLower then reMatch ts s (i + 1) else none
    | none => none
  | .wb :: ts, s, i => if boundaryAt s i then reMatch ts s i else none
  | .starNot cs :: ts, s, i => tryFrom (fun j => reMatch ts s j) i (runLen cs s i)

/-- Leftmost search from `i` (the `lastIndex` of a `g`-flagged JS regex):
try every start position `i`, `i+1`, ..., `s.length`.  The fuel counts the
remaining candidate start positions exactly. -/
def reSearchAux (toks : List RTok) (s : List Char) : Nat → Nat → Option (Nat × Nat)
  | 0, _ => none
  | fuel + 1, i =>
    match reMatch toks s i with
    | some e => some (i, e)
    | none => reSearchAux toks s fuel (i + 1)

def reSearch (toks : List RTok) (s : List Char) (i : Nat) : Option (Nat × Nat) :=
  reSearchAux toks s (s.length + 1 - i) i

def litToks (w : List Char) : List RTok := w.map RTok.lit

def litToksCI (w : List Char) : List RTok := w.map RTok.litCI

/-- `<div([^>]*class="[^"]*\bNAME\b[^"]*"[^>]*)>` with flags `gi`.
Group 1 spans from the end of `<div` to just before the final `>`. -/
def openTagToks (blockName : List Char) : List RTok :=
  litToksCI "<div".toList ++ [RTok.starNot ['>']] ++ litToksCI "class=\"".toList
    ++ [RTok.starNot ['"'], RTok.wb] ++ litToksCI blockName ++ [RTok.wb]
    ++ [RTok.starNot ['"'], RTok.litCI '"', RTok.starNot ['>'], RTok.litCI '>']

/-- `/<div[^>]*>/g` (case-sensitive). -/
def divOpenToks : List RTok := litToks "<div".toList ++ [RTok.starNot ['>'], RTok.lit '>']

/-- `/<\/div>/g`. -/
def divCloseToks : List RTok := litToks "</div>".toList

/-- `/class="([^"]*)"/`; group 1 spans from the end of `class="` to just
before the closing quote. -/
def classAttrToks : List RTok := litToks "class=\"".toList ++ [RTok.starNot ['"'], RTok.lit '"']

/-- `html.substring(a, b)` on the character list: the characters at indices
`a`, ..., `b - 1`. -/
def slice (s : List Char) (a b : Nat) : List Char := (s.drop a).take (b - a)

/-- The whitespace recognised by JS `trim` / `\s` (ASCII part). -/
def isJsWs (c : Char) : Bool :=
  c = ' ' || c = '\t' || c = '\n' || c = '\r' || c = '\x0b' || c = '\x0c'

/-- `.trim()`. -/
def trimChars (l : List Char) : List Char :=
  ((l.dropWhile isJsWs).reverse.dropWhile isJsWs).reverse

/-- `.split(/\s+/)`: `none` state = currently skipping a separator run,
`some cur` = building a token (reversed).  Matches JS corner cases:
a leading separator yields a leading empty string, a trailing separator a
trailing empty string, and the empty string yields `[""]`. -/
def splitWsGo : List Char → Option (List Char) → List (List Char)
  | [], some cur => [cur.reverse]
  | [], none => [[]]
  | c :: rest, some cur =>
    if isJsWs c then cur.reverse :: splitWsGo rest none else splitWsGo rest (some (c :: cur))
  | c :: rest, none =>
    if isJsWs c then splitWsGo rest none else splitWsGo rest (some [c])

def splitWs (l : List Char) : List (List Char) := splitWsGo l (some [])

/-- `classes.find(cls => cls !== blockName && !cls.startsWith(blockName + '-')) || ''`. -/
def pickVariant (blockName : List Char) (classes : List (List Char)) : List Char :=
  (classes.find? fun cls =>
      !(cls == blockName) && !(List.isPrefixOf (blockName ++ ['-']) cls)).getD []

/-- JS object write `blockInstances[variant] = content`: replace in place,
else append. -/
def setKey : List (String × String) → String → String → List (String × String)
  | [], k, v => [(k, v)]
  | (k1, v1) :: rest, k, v =>
    if k1 = k then (k, v) :: rest else (k1, v1) :: setKey rest k v

/-- JS truthiness of `blockInstances[variant]`: present with a non-empty
content string. -/
def truthyGet (m : List (String × String)) (k : String) : Bool :=
  match m.lookup k with
  | some v => !v.isEmpty
  | none => false

/-- The `while (depth > 0 && pos < html.length)` scan: next `</div>` versus
next `<div...>`, whichever comes first.  Returns the start index of the
closing tag that brings the counter to 0, or `none` when the scan runs off
the document.  The position strictly increases each iteration, so a fuel of
`s.length + 1` can never be exhausted first. -/
def dsLoop (s : List Char) : Nat → Nat → Nat → Option Nat
  | 0, _, _ => none
  | fuel + 1, depth, pos =>
    if depth = 0 then none
    else if s.length ≤ pos then none
    else
      match reSearch divCloseToks s pos with
      | none => none
      | some (cst, cen) =>
        match reSearch divOpenToks s pos with
        | some (ost, oen) =>
          if ost < cst then dsLoop s fuel (depth + 1) oen
          else if depth = 1 then some cst
          else dsLoop s fuel (depth - 1) cen
        | none =>
          if depth = 1 then some cst
          else dsLoop s fuel (depth - 1) cen

def depthScan (s : List Char) (startPos : Nat) : Option Nat :=
  dsLoop s (s.length + 1) 1 startPos

/-- The outer `while ((match = openTagRegex.exec(html)) !== null)` loop.
`i` is the regex `lastIndex`; it strictly increases each iteration, so a
fuel of `s.length + 1` can never be exhausted first. -/
def parseLoopAux (s : List Char) (blockName : List Char) :
    Nat → Nat → List (String × String) → List (String × String)
  | 0, _, acc => acc
  | fuel + 1, i, acc =>
    match reSearch (openTagToks blockName) s i with
    | none => acc
    | some (st, en) =>
      let attrs := slice s (st + 4) (en - 1)
      let classes :=
        match reSearch classAttrToks attrs 0 with
        | some (ast, aen) => splitWs (slice attrs (ast + 7) (aen - 1))
        | none => []
      let variant := String.mk (pickVariant blockName classes)
      if truthyGet acc variant then parseLoopAux s blockName fuel en acc
      else
        match depthScan s en with
        | some closeIdx =>
          parseLoopAux s blockName fuel en
            (setKey acc variant (String.mk (trimChars (slice s en closeIdx))))
        | none => parseLoopAux s blockName fuel en acc

/-- `parseBlockInstances(html, blockName)`: the variant-to-inner-markup map,
as an association list in insertion order. -/
def parseBlockInstances (html : String) (blockName : String) : List (String × String) :=
  parseLoopAux html.toList blockName.toList (html.toList.length + 1) 0 []

/-! ## Concrete documents used by individual claims. -/

/-- A flat site config carrying a `total` that differs from its row count and
a `:colWidths` column-width table. -/
def c7FlatConfig : JSheet :=
  { total := some 7, limit := some 7, offset := some 0,
    data := some [[("a", "x")]], colWidths := some [120] }

def c3Sheet : JSheet := createSheetStructure [[("name", "a"), ("v", "1")], [("name", "b")]]

def c3Row : Row := [("name", "a"), ("v", "2")]

/-- An options sheet that is not in the normalized wrapper form: its `total`
and `limit` disagree with the row count and its `offset` is 1. -/
def c6Options : JSheet :=
  { total := some 5, limit := some 5, offset := some 1,
    data := some [[("key", "style")]], colWidths := none }

def c6Doc : JDoc :=
  .multi [("data", createSheetStructure [[("name", "A"), ("path", "p")]]), ("options", c6Options)]
    ["data", "options"]

def c6NormDoc : JDoc :=
  .multi [("data", createSheetStructure [[("name", "A")]]),
          ("options", createSheetStructure [[("key", "style")]])]
    ["data", "options"]

/-- The hypothesis of the register-twice claim: when the site config carries
a `library` sheet, that sheet has a row array whose `title` values are
pairwise distinct. -/
def libraryTitlesOk (cfg : JDoc) : Bool :=
  match cfg with
  | .multi sheets _ =>
    match sheets.lookup "library" with
    | some lib =>
      match lib.data with
      | some rows => distinctKeys "title" rows
      | none => false
    | none => true
  | _ => true

def c4Cfg : JDoc :=
  .multi [("library", createSheetStructure [[("title", "templates"), ("path", "x")]])] ["library"]

/-- A single-quote character, for HTML inputs using single-quoted
attributes. -/
def sq : String := String.singleton (Char.ofNat 39)

/-- Nondeterministic over-approximation of a token-list match: a star
segment may skip forward arbitrarily.  `reMatch` soundly produces
derivations of this relation (`reMatch_sound` below), which is how
structural facts are read out of a successful match. -/
inductive Matches : List RTok → List Char → Nat → Nat → Prop
  | nil (s : List Char) (i : Nat) : Matches [] s i i
  | lit {ts : List RTok} {s : List Char} {i e : Nat} (c d : Char)
      (hd : s[i]? = some d) (hc : d = c) (h : Matches ts s (i + 1) e) :
      Matches (.lit c :: ts) s i e
  | litCI {ts : List RTok} {s : List Char} {i e : Nat} (c d : Char)
      (hd : s[i]? = some d) (hc : d.toLower = c.toLower) (h : Matches ts s (i + 1) e) :
      Matches (.litCI c :: ts) s i e
  | wb {ts : List RTok} {s : List Char} {i e : Nat}
      (hb : boundaryAt s i = true) (h : Matches ts s i e) :
      Matches (.wb :: ts) s i e
  | star {ts : List RTok} {s : List Char} {i e : Nat} (cs : List Char) (j : Nat)
      (hij : i ≤ j) (h : Matches ts s j e) :
      Matches (.starNot cs :: ts) s i e

/-! # Theorems -/

/-! ### Helper lemmas on rows and upserts. -/

theorem rowGet_rowSet_self (k v : String) : ∀ r : Row, rowGet (rowSet r k v) k = some v := by
  intro r
  induction r with
  | nil => simp [rowSet, rowGet, List.lookup]
  | cons p rest ih =>
    obtain ⟨k1, v1⟩ := p
    by_cases h : k1 = k
    · subst h; simp [rowSet, rowGet, List.lookup]
    · simp only [rowSet, if_neg h]
      have hne : (k == k1) = false := by
        simp [beq_eq_false_iff_ne]; exact fun hh => h hh.symm
      simpa [rowGet, List.lookup, hne] using ih

theorem rowGet_rowSet_other (k v k2 : String) (hne : k2 ≠ k) :
    ∀ r : Row, rowGet (rowSet r k v) k2 = rowGet r k2 := by
  intro r
  induction r with
  | nil =>
    have h2 : (k2 == k) = false := by simpa [beq_eq_false_iff_ne] using hne
    simp [rowSet, rowGet, List.lookup, h2]
  | cons p rest ih =>
    obtain ⟨k1, v1⟩ := p
    by_cases h : k1 = k
    · subst h
      have h2 : (k2 == k1) = false := by simpa [beq_eq_false_iff_ne] using hne
      simp [rowSet, rowGet, List.lookup, h2]
    · simp only [rowSet, if_neg h]
      by_cases h3 : k2 = k1
      · subst h3; simp [rowGet, List.lookup]
      · have h4 : (k2 == k1) = false := by simpa [beq_eq_false_iff_ne] using h3
        simpa [rowGet, List.lookup, h4] using ih

theorem distinctKeys_cons (k : String) (r : Row) (rest : List Row) :
    distinctKeys k (r :: rest) = true ↔
      ((∀ r2 ∈ rest, rowGet r2 k ≠ rowGet r k) ∧ distinctKeys k rest = true) := by
  simp [distinctKeys, List.all_eq_true]

theorem addEntryData_cons_hit (k : String) (r item : Row) (rest : List Row)
    (h : rowGet item k = rowGet r k) : addEntryData k r (item :: rest) = r :: rest := by
  simp [addEntryData, h]

theorem addEntryData_cons_miss (k : String) (r item : Row) (rest : List Row)
    (h : rowGet item k ≠ rowGet r k) :
    addEntryData k r (item :: rest) = item :: addEntryData k r rest := by
  simp [addEntryData, beq_eq_false_iff_ne.mpr h]

theorem addEntryData_filter (k : String) (r : Row) :
    ∀ rows, distinctKeys k rows = true →
      (addEntryData k r rows).filter (fun row => rowGet row k == rowGet r k) = [r] := by
  intro rows
  induction rows with
  | nil => intro _; simp [addEntryData]
  | cons item rest ih =>
    intro hd
    rw [distinctKeys_cons] at hd
    obtain ⟨hall, hrest⟩ := hd
    by_cases hkey : rowGet item k = rowGet r k
    · have hnil : rest.filter (fun row => rowGet row k == rowGet r k) = [] := by
        rw [List.filter_eq_nil_iff]
        intro a ha
        have h2 := hall a ha
        rw [hkey] at h2
        simpa using h2
      rw [addEntryData_cons_hit k r item rest hkey]
      simp [List.filter, hnil]
    · rw [addEntryData_cons_miss k r item rest hkey]
      simp [List.filter, beq_eq_false_iff_ne.mpr hkey, ih hrest]

theorem mem_addEntryData (k : String) (r : Row) :
    ∀ rows x, x ∈ addEntryData k r rows → x = r ∨ x ∈ rows := by
  intro rows
  induction rows with
  | nil => intro x hx; simp [addEntryData] at hx; exact Or.inl hx
  | cons item rest ih =>
    intro x hx
    by_cases hkey : rowGet item k = rowGet r k
    · rw [addEntryData_cons_hit k r item rest hkey] at hx
      rcases List.mem_cons.mp hx with h | h
      · exact Or.inl h
      · exact Or.inr (List.mem_cons_of_mem _ h)
    · rw [addEntryData_cons_miss k r item rest hkey] at hx
      rcases List.mem_cons.mp hx with h | h
      · exact Or.inr (h ▸ List.mem_cons_self _ _)
      · rcases ih x h with h2 | h2
        · exact Or.inl h2
        · exact Or.inr (List.mem_cons_of_mem _ h2)

theorem addEntryData_distinct (k : String) (r : Row) :
    ∀ rows, distinctKeys k rows = true → distinctKeys k (addEntryData k r rows) = true := by
  intro rows
  induction rows with
  | nil => intro _; simp [addEntryData, distinctKeys]
  | cons item rest ih =>
    intro hd
    rw [distinctKeys_cons] at hd
    obtain ⟨hall, hrest⟩ := hd
    by_cases hkey : rowGet item k = rowGet r k
    · rw [addEntryData_cons_hit k r item rest hkey, distinctKeys_cons]
      refine ⟨?_, hrest⟩
      intro r2 h2
      have h3 := hall r2 h2
      rw [hkey] at h3
      exact h3
    · rw [addEntryData_cons_miss k r item rest hkey, distinctKeys_cons]
      refine ⟨?_, ih hrest⟩
      intro r2 h2
      rcases mem_addEntryData k r rest r2 h2 with h3 | h3
      · subst h3; exact fun hh => hkey hh.symm
      · exact hall r2 h3

theorem addEntryData_idem (k : String) (r : Row) :
    ∀ rows, addEntryData k r (addEntryData k r rows) = addEntryData k r rows := by
  intro rows
  induction rows with
  | nil => simp [addEntryData]
  | cons item rest ih =>
    by_cases hkey : rowGet item k = rowGet r k
    · rw [addEntryData_cons_hit k r item rest hkey]
      exact addEntryData_cons_hit k r r rest rfl
    · rw [addEntryData_cons_miss k r item rest hkey,
          addEntryData_cons_miss k r item (addEntryData k r rest) hkey, ih]

/-! ### C1 -/

/-- C1: for the HTML input
`<div class="hero dark"><div class="inner">X</div></div><div class="hero light">Y</div>`
and component name `hero`, block-content extraction returns exactly
`{ dark: '<div class="inner">X</div>', light: 'Y' }`: the depth-tracked scan
crosses the nested same-kind `div` correctly. -/
theorem C1_extraction_scenario :
    parseBlockInstances
        "<div class=\"hero dark\"><div class=\"inner\">X</div></div><div class=\"hero light\">Y</div>"
        "hero"
      = [("dark", "<div class=\"inner\">X</div>"), ("light", "Y")] := by decide

/-! ### C2 and C7: flat-config migration. -/

/-- C2: migrating a flat site config with N rows to multi-sheet form yields
`preservedRows = N`, and the `data` sheet of the resulting document holds
exactly the original rows, same content and same order. -/
theorem C2_migration_preserves_rows (config : JSheet) :
    (convertToMultiSheet config).preservedRows = (config.data.getD []).length ∧
    getDataSheet (convertToMultiSheet config).newConfig
      = some (createSheetStructure (config.data.getD [])) ∧
    (getDataSheet (convertToMultiSheet config).newConfig).bind JSheet.data
      = some (config.data.getD []) := by
  refine ⟨rfl, rfl, rfl⟩

/-- C7: the claim fails on the code.  `convertToMultiSheet` copies
`:colWidths` and the original `total` onto the intermediate data sheet, but
`createMultiSheetJSON` rebuilds every member with `createSheetStructure`,
which recomputes `total` from the row count and carries no `:colWidths`
field.  On a flat config with `total = 7` and `:colWidths = [120]` the
migrated `data` sheet shows `total = 1` and no column widths. -/
theorem C7_migration_drops_total_and_colWidths :
    (getDataSheet (convertToMultiSheet c7FlatConfig).newConfig).map JSheet.total
        = some (some 1) ∧
    (getDataSheet (convertToMultiSheet c7FlatConfig).newConfig).map JSheet.colWidths
        = some none ∧
    c7FlatConfig.total = some 7 ∧ c7FlatConfig.colWidths = some [120] := by decide

/-! ### C3: upsert idempotence. -/

/-- C3: on a sheet respecting the data-model invariant (unique key-field
values), upserting the same row twice leaves exactly one row whose key field
equals the row's, that row is the row itself, and the second upsert returns
the same sheet as the first (idempotence). -/
theorem C3_upsert_idempotent (S : JSheet) (r : Row) (k : String)
    (h : distinctKeys k (S.data.getD []) = true) :
    ((addEntry (some (addEntry (some S) r k)) r k).data.getD []).filter
        (fun row => rowGet row k == rowGet r k) = [r] ∧
    addEntry (some (addEntry (some S) r k)) r k = addEntry (some S) r k := by
  constructor
  · show (addEntryData k r (addEntryData k r (S.data.getD []))).filter
        (fun row => rowGet row k == rowGet r k) = [r]
    exact addEntryData_filter k r _ (addEntryData_distinct k r _ h)
  · show createSheetStructure (addEntryData k r (addEntryData k r (S.data.getD [])))
        = createSheetStructure (addEntryData k r (S.data.getD []))
    rw [addEntryData_idem]

/-- Witness for C3 at a concrete sheet and row. -/
theorem C3_witness :
    ((addEntry (some (addEntry (some c3Sheet) c3Row "name")) c3Row "name").data.getD []).filter
        (fun row => rowGet row "name" == rowGet c3Row "name") = [c3Row] ∧
    addEntry (some (addEntry (some c3Sheet) c3Row "name")) c3Row "name"
      = addEntry (some c3Sheet) c3Row "name" :=
  C3_upsert_idempotent c3Sheet c3Row "name" (by decide)

/-! ### C5: batch setup. -/

theorem batch_foldl_spec {α : Type} (label : α → String) (step : α → Except String Bool) :
    ∀ (items : List α) (st : BatchState α),
      ((items.foldl (batchStep label step) st).added
          + (items.foldl (batchStep label step) st).updated
          + (items.foldl (batchStep label step) st).failed
        = st.added + st.updated + st.failed + items.length) ∧
      (items.foldl (batchStep label step) st).outcomes.map (fun o => o.item)
        = st.outcomes.map (fun o => o.item) ++ items := by
  intro items
  induction items with
  | nil => intro st; simp
  | cons x xs ih =>
    intro st
    obtain ⟨h1, h2⟩ := ih (batchStep label step st x)
    have hsum : (batchStep label step st x).added + (batchStep label step st x).updated
        + (batchStep label step st x).failed = st.added + st.updated + st.failed + 1 := by
      cases hx : step x with
      | ok existed => cases existed <;> simp [batchStep, hx] <;> omega
      | error msg => simp [batchStep, hx]; omega
    have hout : (batchStep label step st x).outcomes.map (fun o => o.item)
        = st.outcomes.map (fun o => o.item) ++ [x] := by
      cases hx : step x with
      | ok existed => simp [batchStep, hx]
      | error msg => simp [batchStep, hx]
    constructor
    · rw [List.foldl_cons, h1, hsum]; simp; omega
    · rw [List.foldl_cons, h2, hout]; simp

/-- C5: the batch setup processes every input item: the summary total is the
item count, every item lands in exactly one of added/updated/failed, the
per-item outcome list has one entry per input item in order, and the overall
success flag is true iff no item failed — one item's failure never aborts
the rest. -/
theorem C5_batch_processes_all {α : Type} (items : List α) (label : α → String)
    (step : α → Except String Bool) :
    (setupSheetItems items label step).summary.total = items.length ∧
    (setupSheetItems items label step).summary.added
        + (setupSheetItems items label step).summary.updated
        + (setupSheetItems items label step).summary.failed = items.length ∧
    (setupSheetItems items label step).items.map (fun o => o.item) = items ∧
    (setupSheetItems items label step).items.length = items.length ∧
    ((setupSheetItems items label step).success = true ↔
      (setupSheetItems items label step).summary.failed = 0) := by
  obtain ⟨h1, h2⟩ := batch_foldl_spec label step items ⟨0, 0, 0, [], []⟩
  refine ⟨rfl, ?_, ?_, ?_, ?_⟩
  · simpa [setupSheetItems] using h1
  · simpa [setupSheetItems] using h2
  · have := congrArg List.length h2
    simpa [setupSheetItems] using this
  · simp [setupSheetItems]

/-! ### C9: the path builder. -/

/-- C9 counterexample: the claim says trailing slashes are stripped from
`baseFolder`; the code strips only a single leading slash, so
`baseFolder = "library/"` yields `/library//blocks`, not `/library/blocks`. -/
theorem C9_counterexample :
    buildLibraryPath "blocks" "library/" none = .ok "/library//blocks" ∧
    (Except.ok "/library//blocks" : Except String String) ≠ .ok "/library/blocks" := by
  constructor
  · decide
  · decide

theorem cleanPath_slash (bf : String) : cleanPath ("/" ++ bf) = bf := rfl

theorem cleanPath_no_slash (bf : String) (h : bf.toList.head? ≠ some '/') :
    cleanPath bf = bf := by
  rcases hl : bf.toList with _ | ⟨c, rest⟩
  · have hd : bf.data = [] := hl
    simp [cleanPath, hd]
  · have hc : c ≠ '/' := by
      intro hcc
      exact h (by rw [hl, hcc]; rfl)
    have hd : bf.data = c :: rest := hl
    simp [cleanPath, hd, hc]

/-- C9 amended: `buildLibraryPath` strips a single leading slash from
`baseFolder` (a trailing slash is kept), returns
`/<cleanedBase>/<type>` or `/<cleanedBase>/<type>/<itemName>` for a
recognized type and non-empty item name, and fails with the
unknown-library-type validation error otherwise. -/
theorem C9_buildLibraryPath_amended (ty bf : String) (itemName : Option String) :
    (LIBRARY_TYPES.contains ty = true → bf.toList.head? ≠ some '/' →
      buildLibraryPath ty ("/" ++ bf) itemName = buildLibraryPath ty bf itemName) ∧
    (LIBRARY_TYPES.contains ty = true →
      buildLibraryPath ty bf none = .ok ("/" ++ cleanPath bf ++ "/" ++ ty)) ∧
    (LIBRARY_TYPES.contains ty = true → ∀ item : String, ¬item.isEmpty →
      buildLibraryPath ty bf (some item)
        = .ok ("/" ++ cleanPath bf ++ "/" ++ ty ++ "/" ++ item)) ∧
    (LIBRARY_TYPES.contains ty = false →
      buildLibraryPath ty bf itemName = .error ("Unknown library type: " ++ ty)) := by
  refine ⟨?_, ?_, ?_, ?_⟩
  · intro h1 h2
    have h1m : ty ∈ LIBRARY_TYPES := by simpa using h1
    simp [buildLibraryPath, h1m, cleanPath_slash, cleanPath_no_slash bf h2]
  · intro h1
    have h1m : ty ∈ LIBRARY_TYPES := by simpa using h1
    simp [buildLibraryPath, h1m]
  · intro h1 item hitem
    have h1m : ty ∈ LIBRARY_TYPES := by simpa using h1
    simp [buildLibraryPath, h1m, hitem]
  · intro h1
    have h1m : ty ∉ LIBRARY_TYPES := by simpa using h1
    simp [buildLibraryPath, h1m]

/-- Witness for C9 at concrete inputs: a known type with a base folder that
keeps its trailing slash either way. -/
theorem C9_witness :
    buildLibraryPath "blocks" ("/" ++ "x/") none = buildLibraryPath "blocks" "x/" none ∧
    buildLibraryPath "blocks" "x/" none = .ok ("/" ++ cleanPath "x/" ++ "/" ++ "blocks") ∧
    buildLibraryPath "bogus" "x" none = .error ("Unknown library type: " ++ "bogus") :=
  ⟨(C9_buildLibraryPath_amended "blocks" "x/" none).1 (by decide) (by decide),
   (C9_buildLibraryPath_amended "blocks" "x/" none).2.1 (by decide),
   (C9_buildLibraryPath_amended "bogus" "x" none).2.2.2 (by decide)⟩

/-! ### C6: the options sheet across mutations. -/

theorem createLibraryJSON_blocks_some (entries : List Row) (o : JSheet) :
    createLibraryJSON "blocks" entries (some o)
      = .ok (createMultiSheetJSON
          [("data", ({ data := some entries } : JSheet)), ("options", o)]) := rfl

theorem createLibraryJSON_blocks_none (entries : List Row) :
    createLibraryJSON "blocks" entries none
      = .ok (createMultiSheetJSON
          [("data", ({ data := some entries } : JSheet)),
           ("options", createDefaultBlockOptions)]) := rfl

theorem getOptionsSheet_pair (x o : JSheet) :
    getOptionsSheet (createMultiSheetJSON [("data", x), ("options", o)])
      = some (createSheetStructure (o.data.getD [])) := rfl

theorem addBlock_ok (blocksJSON : Option JDoc) (entry : Row) :
    addBlock blocksJSON entry
      = .ok (createMultiSheetJSON
          [("data", ({ data := some (addEntryData "name" entry
                (((blocksJSON.bind getDataSheet).bind JSheet.data).getD [])) } : JSheet)),
           ("options", (blocksJSON.bind getOptionsSheet).getD createDefaultBlockOptions)]) := by
  cases hopt : blocksJSON.bind getOptionsSheet with
  | some o =>
    simp [addBlock, hopt, createLibraryJSON_blocks_some, addEntry, createSheetStructure]
  | none =>
    simp [addBlock, hopt, createLibraryJSON_blocks_none, addEntry, createSheetStructure]

theorem removeBlock_ok (doc : JDoc) (ds : JSheet) (blockName : String)
    (hds : getDataSheet doc = some ds) :
    removeBlock (some doc) blockName
      = some (.ok (createMultiSheetJSON
          [("data", ({ data := some ((ds.data.getD []).filter fun item =>
                !(rowGet item "name" == some blockName)) } : JSheet)),
           ("options", (getOptionsSheet doc).getD createDefaultBlockOptions)])) := by
  cases hopt : getOptionsSheet doc with
  | some o =>
    simp [removeBlock, hds, hopt, createLibraryJSON_blocks_some, removeEntry, createSheetStructure]
  | none =>
    simp [removeBlock, hds, hopt, createLibraryJSON_blocks_none, removeEntry, createSheetStructure]

/-- C6 counterexample: the options sheet is not carried through untouched.
`addBlock` re-wraps it with `createSheetStructure`, so a blocks document
whose options sheet has `total = limit = 5` and `offset = 1` over one row
comes back with `total = limit = 1` and `offset = 0`: the resulting options
sheet differs from the original. -/
theorem C6_counterexample :
    (addBlock (some c6Doc) [("name", "B"), ("path", "q")]).map getOptionsSheet
      = .ok (some (createSheetStructure [[("key", "style")]])) ∧
    getOptionsSheet c6Doc = some c6Options ∧
    some (createSheetStructure [[("key", "style")]]) ≠ some c6Options := by
  refine ⟨by decide, by decide, by decide⟩

/-- C6 amended: for a blocks document whose options sheet is in the
normalized wrapper form (`total = limit = row count`, `offset = 0`, no extra
metadata — the form this system itself writes), add-block and remove-block
carry the options sheet through unchanged; a freshly created blocks document
with no options sheet supplied receives the fixed default options table. -/
theorem C6_options_carried (doc : JDoc) (opts : JSheet) (entry : Row) (blockName : String)
    (hopts : getOptionsSheet doc = some opts)
    (hnorm : opts = createSheetStructure (opts.data.getD [])) :
    (∃ d, addBlock (some doc) entry = .ok d ∧ getOptionsSheet d = some opts) ∧
    (∀ d, removeBlock (some doc) blockName = some (.ok d) → getOptionsSheet d = some opts) ∧
    (∃ d0, addBlock none entry = .ok d0 ∧
      getOptionsSheet d0 = some (createSheetStructure (createDefaultBlockOptions.data.getD []))) := by
  refine ⟨?_, ?_, ?_⟩
  · refine ⟨_, addBlock_ok (some doc) entry, ?_⟩
    have hb : (some doc).bind getOptionsSheet = some opts := hopts
    rw [hb]
    rw [getOptionsSheet_pair]
    simp [← hnorm]
  · intro d hd
    cases hds : getDataSheet doc with
    | none => rw [removeBlock] at hd; rw [hds] at hd; exact absurd hd (by simp)
    | some ds =>
      rw [removeBlock_ok doc ds blockName hds, hopts] at hd
      have hd2 := Option.some.inj hd
      have hd3 := Except.ok.inj hd2
      rw [← hd3, getOptionsSheet_pair]
      simp [← hnorm]
  · refine ⟨_, addBlock_ok none entry, ?_⟩
    rw [show (none : Option JDoc).bind getOptionsSheet = none from rfl]
    rw [show (none : Option JSheet).getD createDefaultBlockOptions
          = createDefaultBlockOptions from rfl]
    rw [getOptionsSheet_pair]

/-- Witness for C6 at a concrete blocks document with a normalized options
sheet. -/
theorem C6_witness :
    ∃ d, addBlock (some c6NormDoc) [("name", "B")] = .ok d ∧
      getOptionsSheet d = some (createSheetStructure [[("key", "style")]]) :=
  (C6_options_carried c6NormDoc (createSheetStructure [[("key", "style")]]) [("name", "B")] "A"
    (by decide) (by decide)).1

/-! ### C4: registering a library type twice. -/

theorem rowGet_append_of_some (k v : String) (r2 : Row) :
    ∀ r : Row, rowGet r k = some v → rowGet (r ++ r2) k = some v := by
  intro r
  induction r with
  | nil => intro h; simp [rowGet, List.lookup] at h
  | cons q rest ih =>
    intro h
    obtain ⟨k1, v1⟩ := q
    cases hbe : (k == k1) with
    | true =>
      simp [rowGet, List.lookup, hbe] at h ⊢
      exact h
    | false =>
      simp [rowGet, List.lookup, hbe] at h ⊢
      exact ih h

theorem rowGet_foldl_cols (k v : String) :
    ∀ (l : List (String × String)) (acc : Row), rowGet acc k = some v →
      rowGet (l.foldl (fun acc kv =>
        if rowHasKey acc kv.1 then acc else acc ++ [(kv.1, "")]) acc) k = some v := by
  intro l
  induction l with
  | nil => intro acc h; simpa using h
  | cons kv rest ih =>
    intro acc h
    rw [List.foldl_cons]
    apply ih
    cases hh : rowHasKey acc kv.1 with
    | true => simpa [hh] using h
    | false =>
      simp [hh]
      exact rowGet_append_of_some k v _ acc h

theorem rowGet_ensureLibraryColumns (base : Row) (rows : List Row) (k v : String)
    (h : rowGet base k = some v) :
    rowGet (ensureLibraryColumns base rows) k = some v := by
  cases rows with
  | nil => simpa [ensureLibraryColumns] using h
  | cons first rest => exact rowGet_foldl_cols k v first base h

theorem createLibraryEntry_title (ty p : String) (rows : List Row) :
    rowGet (createLibraryEntry ty p rows) "title" = some ty :=
  rowGet_ensureLibraryColumns _ rows _ _ rfl

theorem createLibraryEntry_path (ty p : String) (rows : List Row) :
    rowGet (createLibraryEntry ty p rows) "path" = some p :=
  rowGet_ensureLibraryColumns _ rows _ _ rfl

theorem updateTitleRows_cons_hit (orig : List Row) (ty p : String) (r : Row) (rest : List Row)
    (h : rowGet r "title" = some ty) :
    updateTitleRows orig ty p (r :: rest) = rowSet r "path" p :: rest := by
  simp [updateTitleRows, h]

theorem updateTitleRows_cons_miss (orig : List Row) (ty p : String) (r : Row) (rest : List Row)
    (h : rowGet r "title" ≠ some ty) :
    updateTitleRows orig ty p (r :: rest) = r :: updateTitleRows orig ty p rest := by
  simp [updateTitleRows, beq_eq_false_iff_ne.mpr h]

theorem updateTitleRows_mem (orig : List Row) (ty p : String) :
    ∀ rows x, x ∈ updateTitleRows orig ty p rows →
      (∃ y ∈ rows, rowGet x "title" = rowGet y "title") ∨ rowGet x "title" = some ty := by
  intro rows
  induction rows with
  | nil =>
    intro x hx
    simp [updateTitleRows] at hx
    subst hx
    exact Or.inr (createLibraryEntry_title ty p orig)
  | cons r rest ih =>
    intro x hx
    by_cases hm : rowGet r "title" = some ty
    · rw [updateTitleRows_cons_hit orig ty p r rest hm] at hx
      rcases List.mem_cons.mp hx with h | h
      · subst h
        exact Or.inl ⟨r, List.mem_cons_self r rest,
          rowGet_rowSet_other "path" p "title" (by decide) r⟩
      · exact Or.inl ⟨x, List.mem_cons_of_mem r h, rfl⟩
    · rw [updateTitleRows_cons_miss orig ty p r rest hm] at hx
      rcases List.mem_cons.mp hx with h | h
      · subst h
        exact Or.inl ⟨x, List.mem_cons_self x rest, rfl⟩
      · rcases ih x h with ⟨y, hy, hxy⟩ | h2
        · exact Or.inl ⟨y, List.mem_cons_of_mem r hy, hxy⟩
        · exact Or.inr h2

theorem updateTitleRows_spec (orig : List Row) (ty p : String) :
    ∀ rows, distinctKeys "title" rows = true →
      distinctKeys "title" (updateTitleRows orig ty p rows) = true ∧
      ∃ row, (updateTitleRows orig ty p rows).filter
            (fun r => rowGet r "title" == some ty) = [row] ∧
          rowGet row "path" = some p ∧ rowGet row "title" = some ty := by
  intro rows
  induction rows with
  | nil =>
    intro _
    constructor
    · simp [updateTitleRows, distinctKeys]
    · refine ⟨createLibraryEntry ty p orig, ?_, createLibraryEntry_path ty p orig,
        createLibraryEntry_title ty p orig⟩
      simp [updateTitleRows, List.filter, createLibraryEntry_title ty p orig]
  | cons r rest ih =>
    intro hd
    rw [distinctKeys_cons] at hd
    obtain ⟨hall, hrest⟩ := hd
    by_cases hm : rowGet r "title" = some ty
    · rw [updateTitleRows_cons_hit orig ty p r rest hm]
      have htitle : rowGet (rowSet r "path" p) "title" = rowGet r "title" :=
        rowGet_rowSet_other "path" p "title" (by decide) r
      constructor
      · rw [distinctKeys_cons]
        refine ⟨?_, hrest⟩
        intro r2 h2
        rw [htitle]
        exact hall r2 h2
      · refine ⟨rowSet r "path" p, ?_, rowGet_rowSet_self "path" p r, by rw [htitle]; exact hm⟩
        have hnil : rest.filter (fun r2 => rowGet r2 "title" == some ty) = [] := by
          rw [List.filter_eq_nil_iff]
          intro a ha
          have h2 := hall a ha
          rw [hm] at h2
          simpa using h2
        simp [List.filter, htitle, hm, hnil]
    · rw [updateTitleRows_cons_miss orig ty p r rest hm]
      obtain ⟨ihd, row, hfil, hpath, htit⟩ := ih hrest
      constructor
      · rw [distinctKeys_cons]
        refine ⟨?_, ihd⟩
        intro r2 h2
        rcases updateTitleRows_mem orig ty p rest r2 h2 with ⟨y, hy, hxy⟩ | h3
        · rw [hxy]; exact hall y hy
        · rw [h3]; exact fun hh => hm hh.symm
      · refine ⟨row, ?_, hpath, htit⟩
        simp [List.filter, beq_eq_false_iff_ne.mpr hm, hfil]

theorem lookup_setLibraryMember (L : JSheet) :
    ∀ sheets : List (String × JSheet), (sheets.lookup "library").isSome = true →
      (setLibraryMember sheets L).lookup "library" = some L := by
  intro sheets
  induction sheets with
  | nil => intro h; simp [List.lookup] at h
  | cons q rest ih =>
    intro h
    obtain ⟨k, v⟩ := q
    by_cases hk : k = "library"
    · subst hk
      simp [setLibraryMember, List.lookup]
    · have hb : ("library" == k) = false := beq_eq_false_iff_ne.mpr fun hh => hk hh.symm
      have hsm : setLibraryMember ((k, v) :: rest) L = (k, v) :: setLibraryMember rest L := by
        simp [setLibraryMember, hk]
      have h2 : (rest.lookup "library").isSome = true := by
        have h3 := h
        simp only [List.lookup] at h3
        rw [hb] at h3
        exact h3
      rw [hsm]
      simp only [List.lookup]
      rw [hb]
      exact ih h2

theorem lookup_append_not_lib (l2 : List (String × JSheet)) :
    ∀ l1 : List (String × JSheet), (∀ q ∈ l1, q.1 ≠ "library") →
      (l1 ++ l2).lookup "library" = l2.lookup "library" := by
  intro l1
  induction l1 with
  | nil => intro _; simp
  | cons q rest ih =>
    intro h
    obtain ⟨k, v⟩ := q
    have hb : ("library" == k) = false :=
      beq_eq_false_iff_ne.mpr fun hh => (h (k, v) (List.mem_cons_self _ rest)) hh.symm
    simp only [List.cons_append, List.lookup, hb]
    exact ih fun a ha => h a (List.mem_cons_of_mem _ ha)

theorem parseMultiSheetJSON_no_library (sheets : List (String × JSheet))
    (h : sheets.lookup "library" = none) :
    ∀ names, ∀ q ∈ parseMultiSheetJSON sheets names, q.1 ≠ "library" := by
  have hstep : ∀ (ns : List String) (acc : List (String × JSheet)),
      (∀ q ∈ acc, q.1 ≠ "library") →
      ∀ q ∈ ns.foldl (fun acc name =>
          if (acc.lookup name).isSome then acc
          else
            match sheets.lookup name with
            | some s => acc ++ [(name, s)]
            | none => acc) acc, q.1 ≠ "library" := by
    intro ns
    induction ns with
    | nil => intro acc hacc; simpa using hacc
    | cons n rest ih =>
      intro acc hacc
      rw [List.foldl_cons]
      apply ih
      cases hdup : (acc.lookup n).isSome with
      | true => simpa [hdup] using hacc
      | false =>
        cases hlk : sheets.lookup n with
        | some s =>
          have hgoal : ∀ q ∈ acc ++ [(n, s)], q.1 ≠ "library" := by
            intro q hq
            rcases List.mem_append.mp hq with h1 | h1
            · exact hacc q h1
            · have hqn : q = (n, s) := by simpa using h1
              rw [hqn]
              intro hn
              have hn2 : n = "library" := hn
              rw [hn2] at hlk
              rw [h] at hlk
              exact Option.noConfusion hlk
          simpa [hdup, hlk] using hgoal
        | none => simpa [hdup, hlk] using hacc
  intro names
  exact hstep names [] (by simp)

theorem registerLibraryType_multi_lib (sheets : List (String × JSheet)) (names : List String)
    (L : JSheet) (rows : List Row) (ty p : String)
    (hlk : sheets.lookup "library" = some L) (hd : L.data = some rows) :
    registerLibraryType (.multi sheets names) ty p
      = some (.multi (setLibraryMember sheets
            { L with
              data := some (updateTitleRows rows ty p rows)
              total := some (updateTitleRows rows ty p rows).length
              limit := some (updateTitleRows rows ty p rows).length }) names,
          { registered := true,
            existed := rows.any fun r => rowGet r "title" == some ty,
            createdSheet := false, convertedToMultiSheet := false,
            libraryEntryCount := (updateTitleRows rows ty p rows).length }) := by
  simp [registerLibraryType, ensureLibrarySheet, hlk, hd]

theorem registerLibraryType_ok (cfg : JDoc) (ty p : String)
    (hok : libraryTitlesOk cfg = true) :
    ∃ sheets1 names1 r1 L1 rows1,
      registerLibraryType cfg ty p = some (.multi sheets1 names1, r1) ∧
      sheets1.lookup "library" = some L1 ∧
      L1.data = some rows1 ∧
      distinctKeys "title" rows1 = true ∧
      ∃ row, rows1.filter (fun r => rowGet r "title" == some ty) = [row] ∧
        rowGet row "path" = some p ∧ rowGet row "title" = some ty := by
  cases cfg with
  | flat s =>
    refine ⟨_, _, _, _, [createLibraryEntry ty p []], rfl, rfl, rfl, by simp [distinctKeys], ?_⟩
    refine ⟨createLibraryEntry ty p [], ?_, createLibraryEntry_path ty p [],
      createLibraryEntry_title ty p []⟩
    simp [List.filter, createLibraryEntry_title ty p []]
  | other s =>
    refine ⟨_, _, _, _, [createLibraryEntry ty p []], rfl, rfl, rfl, by simp [distinctKeys], ?_⟩
    refine ⟨createLibraryEntry ty p [], ?_, createLibraryEntry_path ty p [],
      createLibraryEntry_title ty p []⟩
    simp [List.filter, createLibraryEntry_title ty p []]
  | multi sheets names =>
    cases hlk : sheets.lookup "library" with
    | some L =>
      cases hdata : L.data with
      | none =>
        exfalso
        simp [libraryTitlesOk, hlk, hdata] at hok
      | some rows =>
        have hdist : distinctKeys "title" rows = true := by
          simpa [libraryTitlesOk, hlk, hdata] using hok
        obtain ⟨hd2, row, hfil, hpath, htit⟩ := updateTitleRows_spec rows ty p rows hdist
        exact ⟨_, _, _, _, updateTitleRows rows ty p rows,
          registerLibraryType_multi_lib sheets names L rows ty p hlk hdata,
          lookup_setLibraryMember _ sheets (by rw [hlk]; rfl), rfl, hd2,
          row, hfil, hpath, htit⟩
    | none =>
      have hkeys : ∀ q ∈ (parseMultiSheetJSON sheets names).map
          (fun q => (q.1, createSheetStructure (q.2.data.getD []))), q.1 ≠ "library" := by
        intro q hq
        obtain ⟨a, ha, hqa⟩ := List.mem_map.mp hq
        rw [← hqa]
        exact parseMultiSheetJSON_no_library sheets hlk names a ha
      have hlkm : (((parseMultiSheetJSON sheets names ++ [("library", emptyLibrarySheet)]).map
            (fun q => (q.1, createSheetStructure (q.2.data.getD [])))).lookup "library").isSome
          = true := by
        rw [List.map_append]
        rw [lookup_append_not_lib _ _ hkeys]
        rfl
      have hreg : registerLibraryType (.multi sheets names) ty p
          = some (.multi (setLibraryMember
              ((parseMultiSheetJSON sheets names ++ [("library", emptyLibrarySheet)]).map
                (fun q => (q.1, createSheetStructure (q.2.data.getD []))))
              { total := some 0, limit := some 0, offset := some 0,
                data := some (updateTitleRows [] ty p []), colWidths := none })
              ((parseMultiSheetJSON sheets names ++ [("library", emptyLibrarySheet)]).map
                (fun q => q.1)),
            { registered := true, existed := false, createdSheet := true,
              convertedToMultiSheet := false,
              libraryEntryCount := (updateTitleRows [] ty p []).length }) := by
        simp [registerLibraryType, ensureLibrarySheet, hlk, createMultiSheetJSON,
          emptyLibrarySheet]
      refine ⟨_, _, _, _, [createLibraryEntry ty p []], hreg,
        lookup_setLibraryMember _ _ hlkm, rfl, by simp [distinctKeys], ?_⟩
      refine ⟨createLibraryEntry ty p [], ?_, createLibraryEntry_path ty p [],
        createLibraryEntry_title ty p []⟩
      simp [List.filter, createLibraryEntry_title ty p []]

/-- C4: starting from any site config whose library sheet (when present) has
rows with pairwise-distinct titles, registering a library type twice with
two different paths leaves the persisted config with exactly one library row
whose title is that type, and that row's path is the second path — no
duplicate registration row is ever created. -/
theorem C4_register_twice (cfg : JDoc) (ty p1 p2 : String)
    (hok : libraryTitlesOk cfg = true) (hne : p1 ≠ p2) :
    ∃ c1 r1 c2 r2 L rows row,
      registerLibraryType cfg ty p1 = some (c1, r1) ∧
      registerLibraryType c1 ty p2 = some (c2, r2) ∧
      getLibrarySheet c2 = some L ∧
      L.data = some rows ∧
      rows.filter (fun r => rowGet r "title" == some ty) = [row] ∧
      rowGet row "path" = some p2 := by
  obtain ⟨sheets1, names1, r1, L1, rows1, hreg1, hlk1, hd1, hdist1, _, _, _, _⟩ :=
    registerLibraryType_ok cfg ty p1 hok
  obtain ⟨_, row2, hfil2, hpath2, _⟩ := updateTitleRows_spec rows1 ty p2 rows1 hdist1
  exact ⟨_, _, _, _, _, _, row2, hreg1,
    registerLibraryType_multi_lib sheets1 names1 L1 rows1 ty p2 hlk1 hd1,
    lookup_setLibraryMember _ sheets1 (by rw [hlk1]; rfl), rfl, hfil2, hpath2⟩

/-- Witness for C4 at a concrete site config with one registered type. -/
theorem C4_witness :
    ∃ c1 r1 c2 r2 L rows row,
      registerLibraryType c4Cfg "blocks" "/a" = some (c1, r1) ∧
      registerLibraryType c1 "blocks" "/b" = some (c2, r2) ∧
      getLibrarySheet c2 = some L ∧
      L.data = some rows ∧
      rows.filter (fun r => rowGet r "title" == some "blocks") = [row] ∧
      rowGet row "path" = some "/b" :=
  C4_register_twice c4Cfg "blocks" "/a" "/b" (by decide) (by decide)

/-! ### C8 and C10: what the opening-tag scanner can and cannot match. -/

theorem Matches_le {ts : List RTok} {s : List Char} {i e : Nat}
    (h : Matches ts s i e) : i ≤ e := by
  induction h with
  | nil => exact Nat.le_refl _
  | lit c d hd hc h ih => omega
  | litCI c d hd hc h ih => omega
  | wb hb h ih => exact ih
  | star cs j hij h ih => omega

theorem tryFrom_some (f : Nat → Option Nat) (i : Nat) :
    ∀ k e, tryFrom f i k = some e → ∃ j, i ≤ j ∧ j ≤ i + k ∧ f j = some e := by
  intro k
  induction k with
  | zero =>
    intro e h
    exact ⟨i, Nat.le_refl i, by omega, h⟩
  | succ k ih =>
    intro e h
    rw [tryFrom] at h
    cases hf : f (i + (k + 1)) with
    | some e2 =>
      rw [hf] at h
      exact ⟨i + (k + 1), by omega, by omega, by rw [hf]; exact h⟩
    | none =>
      rw [hf] at h
      obtain ⟨j, h1, h2, h3⟩ := ih e h
      exact ⟨j, h1, by omega, h3⟩

theorem reMatch_sound : ∀ (ts : List RTok) (s : List Char) (i e : Nat),
    reMatch ts s i = some e → Matches ts s i e := by
  intro ts
  induction ts with
  | nil =>
    intro s i e h
    rw [reMatch] at h
    rw [← Option.some.inj h]
    exact Matches.nil s i
  | cons t ts ih =>
    intro s i e h
    cases t with
    | lit c =>
      rw [reMatch] at h
      cases hd : s[i]? with
      | none => rw [hd] at h; exact absurd h (by simp)
      | some d =>
        rw [hd] at h
        have h2 : (if d = c then reMatch ts s (i + 1) else none) = some e := h
        by_cases hc : d = c
        · rw [if_pos hc] at h2
          exact Matches.lit c d hd hc (ih s (i + 1) e h2)
        · rw [if_neg hc] at h2
          exact absurd h2 (by simp)
    | litCI c =>
      rw [reMatch] at h
      cases hd : s[i]? with
      | none => rw [hd] at h; exact absurd h (by simp)
      | some d =>
        rw [hd] at h
        have h2 : (if d.toLower = c.toLower then reMatch ts s (i + 1) else none)
            = some e := h
        by_cases hc : d.toLower = c.toLower
        · rw [if_pos hc] at h2
          exact Matches.litCI c d hd hc (ih s (i + 1) e h2)
        · rw [if_neg hc] at h2
          exact absurd h2 (by simp)
    | wb =>
      rw [reMatch] at h
      by_cases hb : boundaryAt s i = true
      · rw [if_pos hb] at h
        exact Matches.wb hb (ih s i e h)
      · rw [if_neg hb] at h
        exact absurd h (by simp)
    | starNot cs =>
      rw [reMatch] at h
      obtain ⟨j, hij, _, hfj⟩ := tryFrom_some (fun j => reMatch ts s j) i (runLen cs s i) e h
      exact Matches.star cs j hij (ih s j e hfj)

theorem Matches_append : ∀ (ts1 ts2 : List RTok) (s : List Char) (i e : Nat),
    Matches (ts1 ++ ts2) s i e → ∃ m, Matches ts1 s i m ∧ Matches ts2 s m e := by
  intro ts1
  induction ts1 with
  | nil =>
    intro ts2 s i e h
    exact ⟨i, Matches.nil s i, h⟩
  | cons t ts ih =>
    intro ts2 s i e h
    cases t with
    | lit c =>
      cases h with
      | lit _ d hd hc h2 =>
        obtain ⟨m, h3, h4⟩ := ih ts2 s _ e h2
        exact ⟨m, Matches.lit c d hd hc h3, h4⟩
    | litCI c =>
      cases h with
      | litCI _ d hd hc h2 =>
        obtain ⟨m, h3, h4⟩ := ih ts2 s _ e h2
        exact ⟨m, Matches.litCI c d hd hc h3, h4⟩
    | wb =>
      cases h with
      | wb hb h2 =>
        obtain ⟨m, h3, h4⟩ := ih ts2 s _ e h2
        exact ⟨m, Matches.wb hb h3, h4⟩
    | starNot cs =>
      cases h with
      | star _ j hij h2 =>
        obtain ⟨m, h3, h4⟩ := ih ts2 s _ e h2
        exact ⟨m, Matches.star cs j hij h3, h4⟩

theorem drop_cons_of_getElem {s : List Char} {i : Nat} {d : Char} (h : s[i]? = some d) :
    s.drop i = d :: s.drop (i + 1) := by
  have hlt : i < s.length := by
    by_contra hge
    rw [List.getElem?_eq_none (by omega)] at h
    exact Option.noConfusion h
  have hd : s[i] = d := by
    have h2 := List.getElem?_eq_getElem hlt
    rw [h2] at h
    exact Option.some.inj h
  rw [List.drop_eq_getElem_cons hlt, hd]

theorem Matches_litToksCI :
    ∀ (w : List Char) (s : List Char) (i e : Nat), Matches (litToksCI w) s i e →
      e = i + w.length ∧ (slice s i e).map Char.toLower = w.map Char.toLower := by
  intro w
  induction w with
  | nil =>
    intro s i e h
    cases h
    exact ⟨by simp, by simp [slice]⟩
  | cons c w2 ih =>
    intro s i e h
    cases h with
    | litCI _ d hd hc h2 =>
      obtain ⟨he, hsl⟩ := ih s (i + 1) e h2
      have he2 : e = i + (c :: w2).length := by simp at he ⊢; omega
      refine ⟨he2, ?_⟩
      have hdrop : s.drop i = d :: s.drop (i + 1) := drop_cons_of_getElem hd
      rw [slice, hdrop]
      have hcount : e - i = (e - (i + 1)) + 1 := by omega
      rw [hcount, List.take_succ_cons, List.map_cons, hc]
      rw [slice] at hsl
      rw [hsl]
      simp

/-- C10: the opening-tag scanner only recognizes tags whose class attribute
is introduced with a double quote: every successful match of the opening-tag
pattern contains the literal characters `class="` (up to ASCII case) inside
the match span.  Concretely, a tag with a single-quoted or unquoted class
attribute yields no variant entry at all. -/
theorem C10_double_quotes_required :
    (∀ (name : String) (s : List Char) (i e : Nat),
        reMatch (openTagToks name.toList) s i = some e →
        ∃ j, i ≤ j ∧ (slice s j (j + 7)).map Char.toLower = "class=\"".toList ∧
          j + 7 ≤ e) ∧
    parseBlockInstances ("<div class=" ++ sq ++ "hero" ++ sq ++ ">Z</div>") "hero" = [] ∧
    parseBlockInstances "<div class=hero>Z</div>" "hero" = [] := by
  refine ⟨?_, by decide, by decide⟩
  intro name s i e h
  have hm := reMatch_sound _ s i e h
  have hsplit : openTagToks name.toList
      = (litToksCI "<div".toList ++ [RTok.starNot ['>']])
        ++ (litToksCI "class=\"".toList
          ++ ([RTok.starNot ['"'], RTok.wb] ++ litToksCI name.toList ++ [RTok.wb]
            ++ [RTok.starNot ['"'], RTok.litCI '"', RTok.starNot ['>'], RTok.litCI '>'])) := by
    simp [openTagToks]
  rw [hsplit] at hm
  obtain ⟨m1, hA, hrest⟩ := Matches_append _ _ s i e hm
  obtain ⟨m2, hcls, hB⟩ := Matches_append _ _ s m1 e hrest
  obtain ⟨hm2, hsl⟩ := Matches_litToksCI _ s m1 m2 hcls
  have hm2b : m2 = m1 + 7 := by simpa using hm2
  refine ⟨m1, Matches_le hA, ?_, ?_⟩
  · rw [← hm2b, hsl]
    decide
  · rw [← hm2b]
    exact Matches_le hB

/-- Witness for C10: the general statement applied to a concrete matched
opening tag. -/
theorem C10_witness :
    ∃ j, 0 ≤ j ∧
      (slice "<div class=\"hero\">".toList j (j + 7)).map Char.toLower
        = "class=\"".toList ∧ j + 7 ≤ 18 :=
  C10_double_quotes_required.1 "hero" "<div class=\"hero\">".toList 0 18 (by decide)

/-- C8 counterexample: the claim says a class list where the name appears
only as part of a longer token never matches; but the scanner uses JS word
boundaries, and a hyphen is a word boundary, so `class="hero-banner"` is
matched for component `hero` (with variant `''`, as `hero-banner` is also
excluded from variant choice by the `hero-` prefix rule). -/
theorem C8_counterexample :
    parseBlockInstances "<div class=\"hero-banner\">Z</div>" "hero" = [("", "Z")] ∧
    parseBlockInstances "<div class=\"hero-banner\">Z</div>" "hero" ≠ [] := by
  refine ⟨by decide, by decide⟩

/-- C8 amended: the opening-tag scanner matches the component name by JS
word boundaries, not by whole class tokens: every successful match contains
the name (up to ASCII case) delimited by a word boundary on each side.
Hence `class="hero-banner"` matches component `hero` (the hyphen is a word
boundary), while a name embedded in a longer run of word characters
(`class="superhero"`, `class="heroic"`) never matches. -/
theorem C8_word_boundary_match :
    (∀ (name : String) (s : List Char) (i e : Nat),
        reMatch (openTagToks name.toList) s i = some e →
        ∃ j, i ≤ j ∧ boundaryAt s j = true ∧
          (slice s j (j + name.toList.length)).map Char.toLower
            = name.toList.map Char.toLower ∧
          boundaryAt s (j + name.toList.length) = true) ∧
    parseBlockInstances "<div class=\"hero-banner\">Z</div>" "hero" = [("", "Z")] ∧
    parseBlockInstances "<div class=\"superhero\">Z</div>" "hero" = [] ∧
    parseBlockInstances "<div class=\"heroic\">Z</div>" "hero" = [] := by
  refine ⟨?_, by decide, by decide, by decide⟩
  intro name s i e h
  have hm := reMatch_sound _ s i e h
  have hsplit : openTagToks name.toList
      = (litToksCI "<div".toList ++ [RTok.starNot ['>']] ++ litToksCI "class=\"".toList
          ++ [RTok.starNot ['"']])
        ++ (RTok.wb :: (litToksCI name.toList
          ++ (RTok.wb
            :: [RTok.starNot ['"'], RTok.litCI '"', RTok.starNot ['>'], RTok.litCI '>']))) := by
    simp [openTagToks]
  rw [hsplit] at hm
  obtain ⟨m1, hA, hrest⟩ := Matches_append _ _ s i e hm
  cases hrest with
  | wb hb1 h2 =>
    obtain ⟨m2, hname, hafter⟩ := Matches_append (litToksCI name.toList)
      (RTok.wb :: [RTok.starNot ['"'], RTok.litCI '"', RTok.starNot ['>'], RTok.litCI '>'])
      s m1 e h2
    obtain ⟨hm2, hsl⟩ := Matches_litToksCI _ s m1 m2 hname
    cases hafter with
    | wb hb2 h3 =>
      refine ⟨m1, Matches_le hA, hb1, ?_, ?_⟩
      · rw [← hm2, hsl]
      · rw [← hm2]
        exact hb2

/-- Witness for C8: the general statement applied to the matched
`hero-banner` opening tag. -/
theorem C8_witness :
    ∃ j, 0 ≤ j ∧ boundaryAt "<div class=\"hero-banner\">Z</div>".toList j = true ∧
      (slice "<div class=\"hero-banner\">Z</div>".toList j (j + "hero".toList.length)).map
          Char.toLower = "hero".toList.map Char.toLower ∧
      boundaryAt "<div class=\"hero-banner\">Z</div>".toList (j + "hero".toList.length)
        = true :=
  C8_word_boundary_match.1 "hero" "<div class=\"hero-banner\">Z</div>".toList 0 25 (by decide)

end DaMedia
